import Mathlib

/-!
Verification of the ember-fryctoria offline synchronization engine.

The definitions below are a shallow embedding of the syncer
(`addon/syncer.js`), the store overlay's shadow reload
(`addon/store.js`), and the persistent collections they manipulate.
Promise chains become explicit state passing: every `.then` step of the
single-threaded drain is one step of a fold, and a rejected promise is
an `Except.error`.  The external key-value storage always stores the
same value as the in-memory cache (`saveAll` sets both from the same
array), so one state field models both.  The remote adapter, an
external collaborator, is modelled as an oracle mapping each job to the
reply of its remote call.
-/

namespace Fryctoria

/-- A serialized record payload: the wire-shape snapshot stored inside a
job (`job.record`), and also the normalized record extracted from a
remote payload.  Field values (including relationship references) are
carried as an opaque association list. -/
structure RawRecord where
  id : String
  fields : List (String × String)
deriving DecidableEq

/-- The three job operations of the job schema in `addon/syncer.js`. -/
inductive Operation
  | createRecord
  | updateRecord
  | deleteRecord
deriving DecidableEq

/-- Job schema from `addon/syncer.js`: `createdAt` is the millisecond
timestamp `(new Date()).getTime()`. -/
structure Job where
  id : String
  operation : Operation
  typeName : String
  record : RawRecord
  createdAt : Nat
deriving DecidableEq

/-- RecordId schema from `addon/syncer.js`: a reconciliation-map entry. -/
structure RemoteIdRecord where
  typeName : String
  localId : String
  remoteId : String
deriving DecidableEq

/-- One record in the local shadow store (the localforage adapter keyed
by type and id).  The external adapter stores at most one record per
(typeName, id) key; `shadowCreate` below keeps that invariant. -/
structure ShadowEntry where
  typeName : String
  id : String
  fields : List (String × String)
deriving DecidableEq

/-- A rejection value carried by a failed promise; `status` is absent
(`none`) when the error object has no numeric status. -/
structure SyncError where
  status : Option Nat
deriving DecidableEq

/-- `isOffline` from `addon/syncer.js`: `error && error.status === 0`. -/
def isOffline (e : SyncError) : Bool :=
  e.status == some 0

/-- `isRemoteId` from `addon/syncer.js`:
`id.indexOf('fryctoria') !== 0`, i.e. the id does not start with the
local namespace tag (stated over the character sequences of the two
strings). -/
def isRemoteId (id : String) : Bool :=
  !("fryctoria".data.isPrefixOf id.data)

/-- The `find` call inside `getRemoteId`: the first reconciliation entry
whose `typeName` and `localId` match. -/
def findMapping (records : List RemoteIdRecord) (typeName id : String) :
    Option RemoteIdRecord :=
  records.find? (fun r => r.typeName == typeName && r.localId == id)

/-- The lookup body of `getRemoteId` in `addon/syncer.js`: an already
remote-shaped id is returned unchanged; otherwise the reconciliation map
is consulted and the input id is returned when no mapping exists. -/
def resolveId (records : List RemoteIdRecord) (typeName id : String) : String :=
  if isRemoteId id then id
  else
    match findMapping records typeName id with
    | some r => r.remoteId
    | none => id

/-- `getRemoteId` from `addon/syncer.js`.  The argument is an
`Option String` so that the JS `null`/`undefined` id (`none`) is
representable: `Ember.assert('Id can not be blank.', !Ember.isNone(id))`
raises exactly when the id is none (`Ember.isNone` is true only for
null and undefined; the empty string is not none).  The raised
assertion is the `Except.error` case. -/
def getRemoteId (records : List RemoteIdRecord) (typeName : String)
    (id : Option String) : Except String String :=
  match id with
  | none => Except.error "Id can not be blank."
  | some s => Except.ok (resolveId records typeName s)

/-- Key match used by the shadow-store adapter: same type and id. -/
def shadowMatches (typeName id : String) (e : ShadowEntry) : Bool :=
  e.typeName == typeName && e.id == id

/-- `localAdapter.deleteRecord`: remove the record stored under
(typeName, id). -/
def shadowDelete (sh : List ShadowEntry) (typeName id : String) :
    List ShadowEntry :=
  sh.filter (fun e => !(shadowMatches typeName id e))

/-- `localAdapter.createRecord`: store a record under (typeName, id),
replacing any record already stored under that key. -/
def shadowCreate (sh : List ShadowEntry) (typeName id : String)
    (fields : List (String × String)) : List ShadowEntry :=
  shadowDelete sh typeName id ++ [⟨typeName, id, fields⟩]

/-- Lookup in the shadow store: the fields stored under (typeName, id),
if any. -/
def shadowGet (sh : List ShadowEntry) (typeName id : String) :
    Option (List (String × String)) :=
  (sh.find? (shadowMatches typeName id)).map ShadowEntry.fields

/-- The syncer state: the in-memory job queue and reconciliation map
(each mirrored verbatim to localforage by `saveAll`), and the local
shadow store written through the localforage adapter. -/
structure SyncerState where
  jobs : List Job
  remoteIdRecords : List RemoteIdRecord
  shadow : List ShadowEntry
deriving DecidableEq

/-- Reply of one remote-adapter call: `ok` carries the normalized record
extracted from the response payload, `err` the rejection value. -/
inductive RemoteReply
  | ok (extracted : RawRecord)
  | err (e : SyncError)
deriving DecidableEq

/-- The environment's remote adapter: the settled outcome of the remote
call dispatched for each job. -/
abbrev RemoteAdapter := Job → RemoteReply

/-- `deleteById('job', id)` from `addon/syncer.js`: keep the jobs whose
id differs. -/
def deleteJobById (st : SyncerState) (id : String) : SyncerState :=
  { st with jobs := st.jobs.filter (fun job => id != job.id) }

/-- `create('remoteIdRecord', record)`: push the new mapping and persist
the whole collection. -/
def createRemoteIdRecordSt (st : SyncerState) (r : RemoteIdRecord) :
    SyncerState :=
  { st with remoteIdRecords := st.remoteIdRecords ++ [r] }

/-- `refreshLocalRecord` inside `runJob`: delete the shadow entry keyed
by the old local id, then recreate the record under the new remote id,
keeping its field values. -/
def refreshLocalRecord (st : SyncerState) (typeName oldId newId : String)
    (fields : List (String × String)) : SyncerState :=
  { st with shadow :=
      shadowCreate (shadowDelete st.shadow typeName oldId) typeName newId fields }

/-- `runJob` from `addon/syncer.js`.  `recordIdBeforeCreate` is the id
of the record rebuilt by `createRecordFromJob`, i.e. the job record's id
resolved through the reconciliation map.  A delete or update dispatch is
followed only by the dequeue; a create dispatch is followed by
`updateIdInStore` (an effect on the live in-memory store only, outside
this state), `createRemoteIdRecord`, `refreshLocalRecord`, and the
dequeue.  A rejected remote call rejects the whole job promise before
any of those steps run. -/
def runJob (adapter : RemoteAdapter) (st : SyncerState) (job : Job) :
    Except SyncError SyncerState :=
  let recordIdBeforeCreate :=
    resolveId st.remoteIdRecords job.typeName job.record.id
  match job.operation, adapter job with
  | Operation.deleteRecord, RemoteReply.ok _ =>
      Except.ok (deleteJobById st job.id)
  | Operation.updateRecord, RemoteReply.ok _ =>
      Except.ok (deleteJobById st job.id)
  | Operation.createRecord, RemoteReply.ok extracted =>
      let st1 := createRemoteIdRecordSt st
        ⟨job.typeName, recordIdBeforeCreate, extracted.id⟩
      let st2 := refreshLocalRecord st1 job.typeName recordIdBeforeCreate
        extracted.id job.record.fields
      Except.ok (deleteJobById st2 job.id)
  | _, RemoteReply.err e => Except.error e

/-- Outcome of the `jobs.reduce` promise chain in `runAllJobs`:
the state after the chain settles, the jobs whose remote dispatch was
started (in dispatch order), the jobs that completed successfully, and
the first rejection if any. -/
structure ChainOut where
  state : SyncerState
  trace : List Job
  done : List Job
  error : Option SyncError
deriving DecidableEq

/-- The sequential promise chain of `runAllJobs`: each job runs only
after the previous one resolved; the first rejection skips the rest. -/
def runJobChain (adapter : RemoteAdapter) :
    SyncerState → List Job → ChainOut
  | st, [] => ⟨st, [], [], none⟩
  | st, j :: rest =>
    match runJob adapter st j with
    | Except.ok st1 =>
        let out := runJobChain adapter st1 rest
        ⟨out.state, j :: out.trace, j :: out.done, out.error⟩
    | Except.error e => ⟨st, [j], [], some e⟩

/-- `jobs.sortBy('createdAt')`: ascending by `createdAt`. -/
def jobLE (a b : Job) : Prop :=
  a.createdAt ≤ b.createdAt

instance : DecidableRel jobLE := fun a b => Nat.decLe a.createdAt b.createdAt

instance : IsTotal Job jobLE := ⟨fun a b => Nat.le_total a.createdAt b.createdAt⟩

instance : IsTrans Job jobLE := ⟨fun _ _ _ h1 h2 => Nat.le_trans h1 h2⟩

/-- Strictly ascending `createdAt` order. -/
def jobLT (a b : Job) : Prop :=
  a.createdAt < b.createdAt

instance : IsAntisymm Job jobLT :=
  ⟨fun _ _ h1 h2 => absurd h2 (Nat.lt_asymm h1)⟩

/-- The sort performed at the start of a drain. -/
def sortJobs (jobs : List Job) : List Job :=
  List.insertionSort jobLE jobs

/-- An optional pluggable error handler (`syncer.handleSyncUpError`) and
its effect on the drain's outer promise: the promise the handler
returns either resolves or rejects. -/
inductive Outcome
  | resolved
  | rejected (e : SyncError)
deriving DecidableEq

/-- Host-supplied configuration: the optional `handleSyncUpError`. -/
structure SyncerConfig where
  handleSyncUpError : Option (SyncError → Outcome)

/-- `runAllJobs` from `addon/syncer.js`: resolve at once when the queue
is empty, otherwise sort by `createdAt`, fold the sequential chain, on
success clear the reconciliation map, and in the catch: swallow an
offline error, delegate to `handleSyncUpError` when installed, and
otherwise re-reject. -/
def runAllJobs (cfg : SyncerConfig) (adapter : RemoteAdapter)
    (st : SyncerState) : SyncerState × Outcome :=
  if st.jobs.isEmpty then (st, Outcome.resolved)
  else
    let out := runJobChain adapter st (sortJobs st.jobs)
    match out.error with
    | none => ({ out.state with remoteIdRecords := [] }, Outcome.resolved)
    | some e =>
        if isOffline e then (out.state, Outcome.resolved)
        else
          match cfg.handleSyncUpError with
          | some handler => (out.state, handler e)
          | none => (out.state, Outcome.rejected e)

/-- `syncUp` from `addon/syncer.js`: it returns `runAllJobs` directly,
with no catch of its own. -/
def syncUp (cfg : SyncerConfig) (adapter : RemoteAdapter)
    (st : SyncerState) : SyncerState × Outcome :=
  runAllJobs cfg adapter st

/-- Dispatch order of the chain, computed from the adapter replies
alone; `runJobChain` realizes exactly this trace from any state. -/
def traceFrom (adapter : RemoteAdapter) : List Job → List Job
  | [] => []
  | j :: rest =>
    match adapter j with
    | RemoteReply.ok _ => j :: traceFrom adapter rest
    | RemoteReply.err _ => [j]

/-- The successfully replayed jobs of the chain, in order. -/
def doneFrom (adapter : RemoteAdapter) : List Job → List Job
  | [] => []
  | j :: rest =>
    match adapter j with
    | RemoteReply.ok _ => j :: doneFrom adapter rest
    | RemoteReply.err _ => []

/-- The first rejection of the chain, if any. -/
def errorFrom (adapter : RemoteAdapter) : List Job → Option SyncError
  | [] => none
  | j :: rest =>
    match adapter j with
    | RemoteReply.ok _ => errorFrom adapter rest
    | RemoteReply.err e => some e

/-- The jobs dispatched by a drain over `st`, in dispatch order. -/
def drainTrace (adapter : RemoteAdapter) (st : SyncerState) : List Job :=
  (runJobChain adapter st (sortJobs st.jobs)).trace

/-- One step of the `deleteAll` phase of `reloadLocalRecords` in
`addon/store.js`: delete the shadow record found for the type. -/
def reloadDeleteStep (typeName : String) (acc : List ShadowEntry)
    (prev : ShadowEntry) : List ShadowEntry :=
  shadowDelete acc typeName prev.id

/-- One step of the `createAll` phase of `reloadLocalRecords`: recreate
a freshly fetched record that has a non-empty id; a record with an empty
(falsy) id is only warned about and skipped. -/
def reloadCreateStep (typeName : String) (acc : List ShadowEntry)
    (record : RawRecord) : List ShadowEntry :=
  if record.id != "" then shadowCreate acc typeName record.id record.fields
  else acc

/-- `reloadLocalRecords` from `addon/store.js`: `findAll` reads every
currently shadowed record of the type, `deleteAll` deletes each of them,
and after all deletions have settled `createAll` recreates an entry for
every fetched record with a non-empty id. -/
def reloadLocalRecords (sh : List ShadowEntry) (typeName : String)
    (records : List RawRecord) : List ShadowEntry :=
  let previousRecords := sh.filter (fun e => e.typeName == typeName)
  let afterDelete := previousRecords.foldl (reloadDeleteStep typeName) sh
  records.foldl (reloadCreateStep typeName) afterDelete

/-- A live `DS.Model` instance as far as `syncDownRecord` inspects one:
its type, id, current field values, and the `isDeleted` flag. -/
structure ModelRecord where
  typeName : String
  id : String
  fields : List (String × String)
  isDeleted : Bool
deriving DecidableEq

/-- The argument shapes `syncDown` distinguishes: a type-name string, a
single model instance, an array of model instances, and `invalid` for
every other value. -/
inductive Descriptor
  | typeName (s : String)
  | record (r : ModelRecord)
  | records (rs : List ModelRecord)
  | invalid

/-- `syncDownRecord` from `addon/syncer.js`: a deleted record's shadow
entry is removed, any other record is written to the shadow store. -/
def syncDownRecord (sh : List ShadowEntry) (r : ModelRecord) :
    List ShadowEntry :=
  if r.isDeleted then shadowDelete sh r.typeName r.id
  else shadowCreate sh r.typeName r.id r.fields

/-- `syncDown` from `addon/syncer.js`.  `storeRecords` supplies the
records of a type that the full reload mirrors (the string branch calls
the reload utility on the type).  The promise-returning branches are
`Except.ok` with the resulting shadow store; the `throw new Error(...)`
of the final branch is the synchronous `Except.error`. -/
def syncDown (storeRecords : String → List RawRecord)
    (sh : List ShadowEntry) : Descriptor → Except String (List ShadowEntry)
  | Descriptor.typeName s =>
      Except.ok (reloadLocalRecords sh s (storeRecords s))
  | Descriptor.record r => Except.ok (syncDownRecord sh r)
  | Descriptor.records rs => Except.ok (rs.foldl syncDownRecord sh)
  | Descriptor.invalid =>
      Except.error "Input can only be a string, a DS.Model or an array of DS.Model"

/-- A pending update job used to exhibit the behavior of a drain whose
remote call is rejected with an application error (HTTP 404). -/
def appErrorJob : Job :=
  { id := "job1", operation := Operation.updateRecord, typeName := "user",
    record := { id := "1", fields := [("name", "Alice")] }, createdAt := 1 }

/-- A create job enqueued first (`createdAt` 1) in the two-job offline
scenario. -/
def firstCreateJob : Job :=
  { id := "jobA", operation := Operation.createRecord, typeName := "user",
    record := { id := "fryctoria1", fields := [("name", "Alice")] },
    createdAt := 1 }

/-- An update job enqueued second (`createdAt` 2) in the two-job offline
scenario. -/
def secondUpdateJob : Job :=
  { id := "jobB", operation := Operation.updateRecord, typeName := "user",
    record := { id := "2", fields := [("name", "Bob")] }, createdAt := 2 }

/-- Remote adapter of the offline scenario: the first job's create call
succeeds with server id 42, then connectivity drops and the second
job's call fails with the transport-level status 0. -/
def midDrainOfflineAdapter : RemoteAdapter := fun j =>
  if j.id == "jobA" then RemoteReply.ok { id := "42", fields := [("name", "Alice")] }
  else RemoteReply.err { status := some 0 }

/-- A remote adapter whose every call succeeds with server id 42. -/
def allOkAdapter : RemoteAdapter := fun _ =>
  RemoteReply.ok { id := "42", fields := [] }

/-- A remote adapter with no connectivity: every call fails with the
transport-level status 0. -/
def alwaysOfflineAdapter : RemoteAdapter := fun _ =>
  RemoteReply.err { status := some 0 }

/-- A job's promise rejects exactly when its remote call rejects, with
the same error: none of the follow-up steps can intercept it. -/
theorem runJob_error_iff (adapter : RemoteAdapter) (st : SyncerState) (j : Job)
    (e : SyncError) :
    runJob adapter st j = Except.error e ↔ adapter j = RemoteReply.err e := by
  cases ha : adapter j <;> cases hop : j.operation <;> simp [runJob, ha, hop]

/-- A successful remote call makes the whole job promise resolve. -/
theorem runJob_ok_of_reply (adapter : RemoteAdapter) (st : SyncerState)
    (j : Job) (x : RawRecord) (h : adapter j = RemoteReply.ok x) :
    ∃ st1, runJob adapter st j = Except.ok st1 := by
  cases hop : j.operation <;> simp [runJob, hop, h]

/-- A successful job removes exactly the jobs bearing its id from the
queue and leaves the rest in place. -/
theorem runJob_ok_jobs (adapter : RemoteAdapter) (st : SyncerState)
    (j : Job) (st1 : SyncerState) (h : runJob adapter st j = Except.ok st1) :
    st1.jobs = st.jobs.filter (fun r => j.id != r.id) := by
  cases ha : adapter j <;> cases hop : j.operation <;>
    simp [runJob, ha, hop] at h <;> subst h <;>
    simp [deleteJobById, createRemoteIdRecordSt, refreshLocalRecord]

/-- A successful job only appends to the reconciliation map. -/
theorem runJob_ok_remoteIdRecords (adapter : RemoteAdapter) (st : SyncerState)
    (j : Job) (st1 : SyncerState) (h : runJob adapter st j = Except.ok st1) :
    ∃ tail, st1.remoteIdRecords = st.remoteIdRecords ++ tail := by
  cases ha : adapter j with
  | ok x =>
    cases hop : j.operation <;> simp [runJob, ha, hop] at h <;> subst h
    · exact ⟨[⟨j.typeName, resolveId st.remoteIdRecords j.typeName
          j.record.id, x.id⟩],
        by simp [deleteJobById, createRemoteIdRecordSt, refreshLocalRecord]⟩
    · exact ⟨[], by simp [deleteJobById]⟩
    · exact ⟨[], by simp [deleteJobById]⟩
  | err e =>
    cases hop : j.operation <;> simp [runJob, ha, hop] at h

/-- The chain dispatches exactly the jobs `traceFrom` predicts, from any
starting state. -/
theorem runJobChain_trace (adapter : RemoteAdapter) (js : List Job)
    (st : SyncerState) :
    (runJobChain adapter st js).trace = traceFrom adapter js := by
  induction js generalizing st with
  | nil => rfl
  | cons j rest ih =>
    cases ha : adapter j with
    | ok x =>
      obtain ⟨st1, h1⟩ := runJob_ok_of_reply adapter st j x ha
      simp [runJobChain, h1, traceFrom, ha, ih st1]
    | err e =>
      have h1 : runJob adapter st j = Except.error e :=
        (runJob_error_iff adapter st j e).mpr ha
      simp [runJobChain, h1, traceFrom, ha]

/-- The chain completes exactly the jobs `doneFrom` predicts. -/
theorem runJobChain_done (adapter : RemoteAdapter) (js : List Job)
    (st : SyncerState) :
    (runJobChain adapter st js).done = doneFrom adapter js := by
  induction js generalizing st with
  | nil => rfl
  | cons j rest ih =>
    cases ha : adapter j with
    | ok x =>
      obtain ⟨st1, h1⟩ := runJob_ok_of_reply adapter st j x ha
      simp [runJobChain, h1, doneFrom, ha, ih st1]
    | err e =>
      have h1 : runJob adapter st j = Except.error e :=
        (runJob_error_iff adapter st j e).mpr ha
      simp [runJobChain, h1, doneFrom, ha]

/-- The chain's rejection is exactly the one `errorFrom` predicts. -/
theorem runJobChain_error (adapter : RemoteAdapter) (js : List Job)
    (st : SyncerState) :
    (runJobChain adapter st js).error = errorFrom adapter js := by
  induction js generalizing st with
  | nil => rfl
  | cons j rest ih =>
    cases ha : adapter j with
    | ok x =>
      obtain ⟨st1, h1⟩ := runJob_ok_of_reply adapter st j x ha
      simp [runJobChain, h1, errorFrom, ha, ih st1]
    | err e =>
      have h1 : runJob adapter st j = Except.error e :=
        (runJob_error_iff adapter st j e).mpr ha
      simp [runJobChain, h1, errorFrom, ha]

/-- After the chain settles, the queue holds exactly the original jobs
whose id differs from every successfully replayed job's id. -/
theorem runJobChain_jobs (adapter : RemoteAdapter) (js : List Job)
    (st : SyncerState) :
    (runJobChain adapter st js).state.jobs =
      st.jobs.filter
        (fun r => (doneFrom adapter js).all (fun d => d.id != r.id)) := by
  induction js generalizing st with
  | nil => simp [runJobChain, doneFrom, List.filter_true]
  | cons j rest ih =>
    cases ha : adapter j with
    | ok x =>
      obtain ⟨st1, h1⟩ := runJob_ok_of_reply adapter st j x ha
      have hjobs := runJob_ok_jobs adapter st j st1 h1
      simp only [runJobChain, h1, doneFrom, ha, ih st1, hjobs,
        List.filter_filter]
      refine List.filter_congr (fun r _ => ?_)
      simp [Bool.and_comm]
    | err e =>
      have h1 : runJob adapter st j = Except.error e :=
        (runJob_error_iff adapter st j e).mpr ha
      simp [runJobChain, h1, doneFrom, ha, List.filter_true]

/-- The chain only appends to the reconciliation map: whatever was
recorded before the drain survives every step of it. -/
theorem runJobChain_remoteIdRecords (adapter : RemoteAdapter) (js : List Job)
    (st : SyncerState) :
    ∃ tail, (runJobChain adapter st js).state.remoteIdRecords =
      st.remoteIdRecords ++ tail := by
  induction js generalizing st with
  | nil => exact ⟨[], by simp [runJobChain]⟩
  | cons j rest ih =>
    cases ha : adapter j with
    | ok x =>
      obtain ⟨st1, h1⟩ := runJob_ok_of_reply adapter st j x ha
      obtain ⟨t1, ht1⟩ := runJob_ok_remoteIdRecords adapter st j st1 h1
      obtain ⟨t2, ht2⟩ := ih st1
      exact ⟨t1 ++ t2, by simp [runJobChain, h1, ht2, ht1]⟩
    | err e =>
      have h1 : runJob adapter st j = Except.error e :=
        (runJob_error_iff adapter st j e).mpr ha
      exact ⟨[], by simp [runJobChain, h1]⟩

/-- A chain that rejects before completing any job leaves the state
exactly as it was. -/
theorem runJobChain_state_of_immediate_error (adapter : RemoteAdapter)
    (js : List Job) (st : SyncerState) (e : SyncError)
    (herr : errorFrom adapter js = some e) (hd : doneFrom adapter js = []) :
    (runJobChain adapter st js).state = st := by
  cases js with
  | nil => simp [errorFrom] at herr
  | cons j rest =>
    cases ha : adapter j with
    | ok x => simp [doneFrom, ha] at hd
    | err e2 =>
      have h1 : runJob adapter st j = Except.error e2 :=
        (runJob_error_iff adapter st j e2).mpr ha
      simp [runJobChain, h1]

/-- The dispatched jobs form a sublist of the sorted queue: nothing is
dispatched twice and nothing is dispatched out of place. -/
theorem traceFrom_sublist (adapter : RemoteAdapter) (js : List Job) :
    (traceFrom adapter js).Sublist js := by
  induction js with
  | nil => simp [traceFrom]
  | cons j rest ih =>
    cases ha : adapter j with
    | ok x =>
      simp only [traceFrom, ha]
      exact ih.cons₂ j
    | err e =>
      simp only [traceFrom, ha]
      exact (List.nil_sublist rest).cons₂ j

/-- A chain with no rejection dispatches and completes every job. -/
theorem errorFrom_none (adapter : RemoteAdapter) (js : List Job)
    (h : errorFrom adapter js = none) :
    doneFrom adapter js = js ∧ traceFrom adapter js = js := by
  induction js with
  | nil => simp [doneFrom, traceFrom]
  | cons j rest ih =>
    cases ha : adapter j with
    | ok x =>
      simp only [errorFrom, ha] at h
      simp [doneFrom, traceFrom, ha, ih h]
    | err e => simp [errorFrom, ha] at h

/-- A rejected chain dispatched exactly the completed jobs followed by
the single offending job, whose remote call carries the error. -/
theorem errorFrom_some (adapter : RemoteAdapter) (js : List Job)
    (e : SyncError) (h : errorFrom adapter js = some e) :
    ∃ jl, traceFrom adapter js = doneFrom adapter js ++ [jl] ∧
      adapter jl = RemoteReply.err e := by
  induction js with
  | nil => simp [errorFrom] at h
  | cons j rest ih =>
    cases ha : adapter j with
    | ok x =>
      simp only [errorFrom, ha] at h
      obtain ⟨jl, h1, h2⟩ := ih h
      exact ⟨jl, by simp [traceFrom, doneFrom, ha, h1], h2⟩
    | err e2 =>
      simp only [errorFrom, ha, Option.some.injEq] at h
      exact ⟨j, by simp [traceFrom, doneFrom, ha], h ▸ ha⟩

/-- `sortBy` returns a rearrangement of the queue. -/
theorem sortJobs_perm (l : List Job) : (sortJobs l).Perm l :=
  List.perm_insertionSort jobLE l

/-- The sorted queue is ascending by `createdAt`. -/
theorem sortJobs_sorted (l : List Job) : List.Sorted jobLE (sortJobs l) :=
  List.sorted_insertionSort jobLE l

/-- With pairwise distinct `createdAt` values the sorted queue is
strictly ascending. -/
theorem sortJobs_sorted_strict (l : List Job)
    (hd : l.Pairwise (fun a b => a.createdAt ≠ b.createdAt)) :
    List.Sorted jobLT (sortJobs l) := by
  have hd2 : (sortJobs l).Pairwise (fun a b => a.createdAt ≠ b.createdAt) :=
    (List.Perm.pairwise_iff (fun h => h.symm) (sortJobs_perm l)).mpr hd
  exact ((sortJobs_sorted l).and hd2).imp
    (fun h => Nat.lt_of_le_of_ne h.1 h.2)

/-- With pairwise distinct `createdAt` values, two queues holding the
same jobs in any order sort identically: replay order is independent of
the enqueue order. -/
theorem sortJobs_eq_of_perm (l1 l2 : List Job) (hperm : l1.Perm l2)
    (hd : l1.Pairwise (fun a b => a.createdAt ≠ b.createdAt)) :
    sortJobs l1 = sortJobs l2 := by
  have hd2 : l2.Pairwise (fun a b => a.createdAt ≠ b.createdAt) :=
    (List.Perm.pairwise_iff (fun h => h.symm) hperm).mp hd
  exact List.eq_of_perm_of_sorted
    ((sortJobs_perm l1).trans (hperm.trans (sortJobs_perm l2).symm))
    (sortJobs_sorted_strict l1 hd) (sortJobs_sorted_strict l2 hd2)

/-- Filtering away elements that a search predicate can never match
does not change the search result. -/
theorem find?_filter_of_imp {α : Type} (p q : α → Bool) (l : List α)
    (h : ∀ x, p x = true → q x = true) :
    (l.filter q).find? p = l.find? p := by
  induction l with
  | nil => rfl
  | cons a t ih =>
    cases hq : q a with
    | true =>
      cases hp : p a <;> simp [List.filter_cons, hq, List.find?_cons, hp, ih]
    | false =>
      have hp : p a = false := by
        cases hpa : p a with
        | true => exact absurd (h a hpa) (by simp [hq])
        | false => rfl
      simp [List.filter_cons, hq, List.find?_cons, hp, ih]

/-- Appending an element the search predicate rejects does not change
the search result. -/
theorem find?_append_singleton_false {α : Type} (p : α → Bool) (l : List α)
    (e : α) (h : p e = false) : (l ++ [e]).find? p = l.find? p := by
  rw [List.find?_append]
  simp [List.find?_cons, h]

/-- After deleting key (typeName, id) the shadow store resolves nothing
under that key. -/
theorem shadowGet_delete_self (sh : List ShadowEntry) (tn id : String) :
    shadowGet (shadowDelete sh tn id) tn id = none := by
  unfold shadowGet shadowDelete
  rw [Option.map_eq_none', List.find?_eq_none]
  intro x hx
  have h2 : (!(shadowMatches tn id x)) = true := (List.mem_filter.mp hx).2
  simp only [Bool.not_eq_true'] at h2
  simp [h2]

/-- Deleting one key leaves every other key's lookup unchanged. -/
theorem shadowGet_delete_ne (sh : List ShadowEntry) (tn id tn2 id2 : String)
    (hne : tn2 ≠ tn ∨ id2 ≠ id) :
    shadowGet (shadowDelete sh tn id) tn2 id2 = shadowGet sh tn2 id2 := by
  unfold shadowGet shadowDelete
  congr 1
  refine find?_filter_of_imp _ _ sh (fun x hx => ?_)
  simp only [shadowMatches, Bool.and_eq_true, beq_iff_eq] at hx
  obtain ⟨h1, h2⟩ := hx
  have hm : shadowMatches tn id x = false := by
    rcases hne with hne | hne
    · have h3 : (x.typeName == tn) = false := by
        rw [h1]
        exact beq_eq_false_iff_ne.mpr hne
      simp [shadowMatches, h3]
    · have h3 : (x.id == id) = false := by
        rw [h2]
        exact beq_eq_false_iff_ne.mpr hne
      simp [shadowMatches, h3]
  simp [hm]

/-- After an upsert, the written key resolves to the written fields. -/
theorem shadowGet_create_self (sh : List ShadowEntry) (tn id : String)
    (f : List (String × String)) :
    shadowGet (shadowCreate sh tn id f) tn id = some f := by
  have hnone : (shadowDelete sh tn id).find? (shadowMatches tn id) = none := by
    have h := shadowGet_delete_self sh tn id
    unfold shadowGet at h
    exact Option.map_eq_none'.mp h
  unfold shadowGet shadowCreate
  rw [List.find?_append, hnone]
  simp [List.find?_cons, shadowMatches]

/-- An upsert leaves every other key's lookup unchanged. -/
theorem shadowGet_create_ne (sh : List ShadowEntry) (tn id : String)
    (f : List (String × String)) (tn2 id2 : String)
    (hne : tn2 ≠ tn ∨ id2 ≠ id) :
    shadowGet (shadowCreate sh tn id f) tn2 id2 = shadowGet sh tn2 id2 := by
  have hpe : shadowMatches tn2 id2 ⟨tn, id, f⟩ = false := by
    rcases hne with hne | hne
    · have h3 : (tn == tn2) = false := beq_eq_false_iff_ne.mpr (Ne.symm hne)
      simp [shadowMatches, h3]
    · have h3 : (id == id2) = false := beq_eq_false_iff_ne.mpr (Ne.symm hne)
      simp [shadowMatches, h3]
  have h := shadowGet_delete_ne sh tn id tn2 id2 hne
  unfold shadowGet at h
  unfold shadowGet shadowCreate
  rw [find?_append_singleton_false _ _ _ hpe]
  exact h

/-- Folding key deletions over the shadow store removes exactly the
entries of the type whose id is among the deleted ids. -/
theorem foldl_shadowDelete_char (tn : String) (ids : List String) :
    ∀ acc : List ShadowEntry,
      ids.foldl (fun a i => shadowDelete a tn i) acc =
        acc.filter (fun e => !(e.typeName == tn && ids.contains e.id)) := by
  induction ids with
  | nil => intro acc; simp
  | cons i rest ih =>
    intro acc
    rw [List.foldl_cons, ih (shadowDelete acc tn i)]
    unfold shadowDelete
    rw [List.filter_filter]
    refine List.filter_congr (fun e he => ?_)
    simp only [shadowMatches, List.contains_cons]
    cases ht : e.typeName == tn <;> cases hx : e.id == i <;>
      cases hc : rest.contains e.id <;> simp [ht, hx, hc]

/-- The `deleteAll` phase of the reload: deleting every record that
`findAll` returned for the type empties the type's shadow collection
and touches nothing else. -/
theorem reload_afterDelete (sh : List ShadowEntry) (tn : String) :
    (sh.filter (fun e => e.typeName == tn)).foldl (reloadDeleteStep tn) sh =
      sh.filter (fun e => e.typeName != tn) := by
  have hmap :
      (sh.filter (fun e => e.typeName == tn)).foldl (reloadDeleteStep tn) sh =
        ((sh.filter (fun e => e.typeName == tn)).map ShadowEntry.id).foldl
          (fun a i => shadowDelete a tn i) sh := by
    rw [List.foldl_map]
    rfl
  rw [hmap, foldl_shadowDelete_char]
  refine List.filter_congr (fun e he => ?_)
  cases ht : e.typeName == tn with
  | false =>
    simp [ht]
    exact beq_eq_false_iff_ne.mp ht
  | true =>
    have hmem : e.id ∈ (sh.filter (fun x => x.typeName == tn)).map
        ShadowEntry.id :=
      List.mem_map.mpr ⟨e, List.mem_filter.mpr ⟨he, ht⟩, rfl⟩
    simp [ht, bne, List.contains, List.elem_iff, hmem]

/-- The `createAll` phase of the reload: starting from a store holding
none of the incoming keys, recreating the fetched records with non-empty
ids appends exactly their entries to the type's collection and leaves
other types alone. -/
theorem foldl_reloadCreate_char (tn : String) (records : List RawRecord) :
    ∀ acc : List ShadowEntry,
      (∀ r ∈ records, r.id != "" → acc.filter (shadowMatches tn r.id) = []) →
      ((records.filter (fun x => x.id != "")).map RawRecord.id).Nodup →
      (records.foldl (reloadCreateStep tn) acc).filter
          (fun e => e.typeName == tn) =
        acc.filter (fun e => e.typeName == tn) ++
          (records.filter (fun x => x.id != "")).map
            (fun x => (⟨tn, x.id, x.fields⟩ : ShadowEntry)) ∧
      (records.foldl (reloadCreateStep tn) acc).filter
          (fun e => e.typeName != tn) =
        acc.filter (fun e => e.typeName != tn) := by
  induction records with
  | nil => intro acc _ _; simp
  | cons r rest ih =>
    intro acc hfresh hnodup
    cases hid : r.id != "" with
    | false =>
      have hstep : reloadCreateStep tn acc r = acc := by
        simp [reloadCreateStep, hid]
      have hfl : (r :: rest).filter (fun x => x.id != "") =
          rest.filter (fun x => x.id != "") := by
        simp [List.filter_cons, hid]
      rw [hfl] at hnodup
      have hres := ih acc
        (fun r2 hr2 => hfresh r2 (List.mem_cons_of_mem r hr2)) hnodup
      rw [List.foldl_cons, hstep, hfl]
      exact hres
    | true =>
      have hfrH : acc.filter (shadowMatches tn r.id) = [] :=
        hfresh r (List.mem_cons_self r rest) hid
      have hdel : shadowDelete acc tn r.id = acc := by
        unfold shadowDelete
        rw [List.filter_eq_self]
        intro e he
        have hnm : ¬ shadowMatches tn r.id e = true := by
          intro hm
          have hmem : e ∈ acc.filter (shadowMatches tn r.id) :=
            List.mem_filter.mpr ⟨he, hm⟩
          rw [hfrH] at hmem
          exact absurd hmem (List.not_mem_nil e)
        simp [hnm]
      have hstep : reloadCreateStep tn acc r =
          acc ++ [(⟨tn, r.id, r.fields⟩ : ShadowEntry)] := by
        simp [reloadCreateStep, hid, shadowCreate, hdel]
      have hfl : (r :: rest).filter (fun x => x.id != "") =
          r :: rest.filter (fun x => x.id != "") := by
        simp [List.filter_cons, hid]
      rw [hfl, List.map_cons, List.nodup_cons] at hnodup
      obtain ⟨hnotin, hnodup2⟩ := hnodup
      have hfresh1 : ∀ r2 ∈ rest, r2.id != "" →
          (acc ++ [(⟨tn, r.id, r.fields⟩ : ShadowEntry)]).filter
            (shadowMatches tn r2.id) = [] := by
        intro r2 hr2 hid2
        rw [List.filter_append]
        have ha : acc.filter (shadowMatches tn r2.id) = [] :=
          hfresh r2 (List.mem_cons_of_mem r hr2) hid2
        have hne : (r.id == r2.id) = false := by
          refine beq_eq_false_iff_ne.mpr (fun heq => hnotin ?_)
          exact List.mem_map.mpr ⟨r2, List.mem_filter.mpr ⟨hr2, hid2⟩, heq.symm⟩
        have hb : ([(⟨tn, r.id, r.fields⟩ : ShadowEntry)]).filter
            (shadowMatches tn r2.id) = [] := by
          simp [List.filter_cons, shadowMatches, hne]
        rw [ha, hb]
        rfl
      obtain ⟨ih1, ih2⟩ := ih (acc ++ [(⟨tn, r.id, r.fields⟩ : ShadowEntry)])
        hfresh1 hnodup2
      constructor
      · rw [List.foldl_cons, hstep, ih1, List.filter_append, hfl,
          List.map_cons]
        simp [List.append_assoc]
      · rw [List.foldl_cons, hstep, ih2, List.filter_append]
        simp

/-- C7: the reconciliation lookup is idempotent and mutates no state
(it is a pure function of `remoteIdRecords`): an id that is already
remote-shaped is returned unchanged, an id with no recorded mapping is
returned unchanged, only an id with a recorded mapping is replaced by
its remote id, and — whenever the recorded remote ids are themselves
remote-shaped — resolving twice equals resolving once. -/
theorem resolveId_idempotent_cases (recs : List RemoteIdRecord)
    (tn id : String) :
    (isRemoteId id = true → resolveId recs tn id = id) ∧
    (findMapping recs tn id = none → resolveId recs tn id = id) ∧
    (∀ r, isRemoteId id = false → findMapping recs tn id = some r →
      resolveId recs tn id = r.remoteId) ∧
    ((∀ r ∈ recs, isRemoteId r.remoteId = true) →
      resolveId recs tn (resolveId recs tn id) = resolveId recs tn id) := by
  refine ⟨?_, ?_, ?_, ?_⟩
  · intro h
    simp [resolveId, h]
  · intro h
    cases hr : isRemoteId id <;> simp [resolveId, hr, h]
  · intro r h1 h2
    simp [resolveId, h1, h2]
  · intro hall
    cases hr : isRemoteId id with
    | true => simp [resolveId, hr]
    | false =>
      cases hm : findMapping recs tn id with
      | none => simp [resolveId, hr, hm]
      | some r =>
        have hmem : r ∈ recs := by
          unfold findMapping at hm
          exact List.mem_of_find?_eq_some hm
        simp [resolveId, hr, hm, hall r hmem]

/-- Concrete run of the C7 lookup cases: a remote-shaped id and an
unmapped local id pass through unchanged, a mapped local id resolves to
its remote id. -/
theorem resolveId_idempotent_cases_witness :
    isRemoteId "42" = true ∧ resolveId [] "user" "42" = "42" ∧
    findMapping [⟨"user", "fryctoria1", "42"⟩] "user" "fryctoria2" = none ∧
    resolveId [⟨"user", "fryctoria1", "42"⟩] "user" "fryctoria2" =
      "fryctoria2" ∧
    resolveId [⟨"user", "fryctoria1", "42"⟩] "user" "fryctoria1" = "42" :=
  ⟨by decide,
   (resolveId_idempotent_cases [] "user" "42").1 (by decide),
   by decide,
   (resolveId_idempotent_cases [⟨"user", "fryctoria1", "42"⟩] "user"
     "fryctoria2").2.1 (by decide),
   (resolveId_idempotent_cases [⟨"user", "fryctoria1", "42"⟩] "user"
     "fryctoria1").2.2.1 ⟨"user", "fryctoria1", "42"⟩ (by decide) (by decide)⟩

/-- C10: for every typeName and every id of the schema's String id
domain the lookup cannot fail: `getRemoteId` always returns an id.  The
`Ember.assert` guard tests `Ember.isNone`, which holds only for the JS
null/undefined id (`none` here) and never for a string — in particular
a blank (empty) id trips nothing and is returned unchanged.  The lookup
reads only the in-memory map and mutates no state. -/
theorem getRemoteId_total_on_string_ids (recs : List RemoteIdRecord)
    (tn : String) (id : String) :
    ∃ r, getRemoteId recs tn (some id) = Except.ok r ∧ (id = "" → r = id) := by
  refine ⟨resolveId recs tn id, rfl, fun h => ?_⟩
  subst h
  have h1 : isRemoteId "" = true := by decide
  simp [resolveId, h1]

/-- Concrete run of C10 at the blank id: the lookup succeeds and
returns the blank id unchanged. -/
theorem getRemoteId_total_on_string_ids_witness :
    getRemoteId [] "user" (some "") = Except.ok "" := by
  obtain ⟨r, h1, h2⟩ := getRemoteId_total_on_string_ids [] "user" ""
  rw [h1, h2 rfl]

/-- C9: `syncDown` raises its invalid-argument error synchronously
exactly for an unsupported argument shape; a type-name string, a single
model instance and an array of model instances raise nothing and get
the full reload, the per-record handling, and the per-member handling
respectively. -/
theorem syncDown_dispatch (storeRecords : String → List RawRecord)
    (sh : List ShadowEntry) :
    syncDown storeRecords sh Descriptor.invalid =
      Except.error
        "Input can only be a string, a DS.Model or an array of DS.Model" ∧
    (∀ tn, syncDown storeRecords sh (Descriptor.typeName tn) =
      Except.ok (reloadLocalRecords sh tn (storeRecords tn))) ∧
    (∀ r, syncDown storeRecords sh (Descriptor.record r) =
      Except.ok (syncDownRecord sh r)) ∧
    (∀ rs, syncDown storeRecords sh (Descriptor.records rs) =
      Except.ok (rs.foldl syncDownRecord sh)) :=
  ⟨rfl, fun _ => rfl, fun _ => rfl, fun _ => rfl⟩

/-- C1 evidence: with one pending job whose remote call is rejected
with an application error (HTTP 404, not offline) and no pluggable
`handleSyncUpError` installed, the addon's `syncUp` — which returns
`runAllJobs` without a catch of its own — yields a rejected promise
carrying that error, although its own doc comment promises a promise
that always resolves. -/
theorem syncUp_rejects_unhandled_application_error :
    (syncUp ⟨none⟩ (fun _ => RemoteReply.err ⟨some 404⟩)
        ⟨[appErrorJob], [], []⟩).2 = Outcome.rejected ⟨some 404⟩ ∧
    isOffline ⟨some 404⟩ = false := by
  constructor
  · rfl
  · rfl

/-- C3: a fully successful drain of a non-empty queue leaves both the
job queue and the reconciliation map empty: each job is dequeued on its
own success and the whole mapping collection is cleared after the chain
resolves. -/
theorem successful_drain_empties_queue_and_map (cfg : SyncerConfig)
    (adapter : RemoteAdapter) (st : SyncerState) (hne : st.jobs ≠ [])
    (hok : errorFrom adapter (sortJobs st.jobs) = none) :
    (runAllJobs cfg adapter st).1.jobs = [] ∧
    (runAllJobs cfg adapter st).1.remoteIdRecords = [] := by
  have hempty : st.jobs.isEmpty = false := List.isEmpty_eq_false.mpr hne
  have hchain : (runJobChain adapter st (sortJobs st.jobs)).error = none :=
    (runJobChain_error adapter (sortJobs st.jobs) st).trans hok
  simp only [runAllJobs, hempty, Bool.false_eq_true, if_false, hchain]
  refine ⟨?_, trivial⟩
  rw [runJobChain_jobs, (errorFrom_none adapter _ hok).1]
  rw [List.filter_eq_nil_iff]
  intro r hr hall
  have hmem : r ∈ sortJobs st.jobs := (sortJobs_perm st.jobs).mem_iff.mpr hr
  have h2 := List.all_eq_true.mp hall r hmem
  simp at h2

/-- Concrete run of C3: a two-job drain in which every remote call
succeeds ends with an empty queue and an empty reconciliation map, even
though the map was non-empty before the drain. -/
theorem successful_drain_empties_queue_and_map_witness :
    ([firstCreateJob, secondUpdateJob] : List Job) ≠ [] ∧
    errorFrom allOkAdapter (sortJobs [firstCreateJob, secondUpdateJob]) =
      none ∧
    ((runAllJobs ⟨none⟩ allOkAdapter
        ⟨[firstCreateJob, secondUpdateJob],
         [⟨"user", "fryctoria9", "7"⟩], []⟩).1.jobs = [] ∧
     (runAllJobs ⟨none⟩ allOkAdapter
        ⟨[firstCreateJob, secondUpdateJob],
         [⟨"user", "fryctoria9", "7"⟩], []⟩).1.remoteIdRecords = []) :=
  ⟨by decide, by decide,
   successful_drain_empties_queue_and_map ⟨none⟩ allOkAdapter
     ⟨[firstCreateJob, secondUpdateJob], [⟨"user", "fryctoria9", "7"⟩], []⟩
     (by decide) (by decide)⟩

/-- C4 as stated is false on the code: in the two-job drain the first
create job is replayed, dequeued and recorded in the reconciliation map
before the second job's remote call fails with the Offline
classification (status 0); after the halted drain the queue and the map
both differ from their pre-drain contents. -/
theorem offline_halt_frame_counterexample :
    errorFrom midDrainOfflineAdapter
        (sortJobs [firstCreateJob, secondUpdateJob]) =
      some ⟨some 0⟩ ∧
    isOffline ⟨some 0⟩ = true ∧
    (runAllJobs ⟨none⟩ midDrainOfflineAdapter
        ⟨[firstCreateJob, secondUpdateJob], [], []⟩).1.jobs =
      [secondUpdateJob] ∧
    (runAllJobs ⟨none⟩ midDrainOfflineAdapter
        ⟨[firstCreateJob, secondUpdateJob], [], []⟩).1.remoteIdRecords =
      [⟨"user", "fryctoria1", "42"⟩] ∧
    [secondUpdateJob] ≠ [firstCreateJob, secondUpdateJob] ∧
    ([⟨"user", "fryctoria1", "42"⟩] : List RemoteIdRecord) ≠ [] := by
  refine ⟨?_, ?_, ?_, ?_, ?_, ?_⟩ <;> decide

/-- C4 amended: when a drain is halted by an Offline-classified remote
failure, the halt is clean — the outer promise resolves; the
reconciliation map is not cleared and keeps everything recorded before
the drain (new entries are only appended); every job whose id is not
among the successfully replayed ids — the offending job and all
unprocessed jobs — is still queued; and if the offline failure strikes
the first remote call of the drain, the whole state (queue,
reconciliation map and shadow store) is exactly as before the drain
attempt.  Jobs replayed before the failure, however, stay dequeued. -/
theorem offline_halt_frame (cfg : SyncerConfig) (adapter : RemoteAdapter)
    (st : SyncerState) (e : SyncError)
    (herr : errorFrom adapter (sortJobs st.jobs) = some e)
    (hoff : isOffline e = true) :
    (runAllJobs cfg adapter st).2 = Outcome.resolved ∧
    (∃ tail, (runAllJobs cfg adapter st).1.remoteIdRecords =
      st.remoteIdRecords ++ tail) ∧
    (∀ j ∈ st.jobs,
      j.id ∉ (doneFrom adapter (sortJobs st.jobs)).map Job.id →
      j ∈ (runAllJobs cfg adapter st).1.jobs) ∧
    (doneFrom adapter (sortJobs st.jobs) = [] →
      (runAllJobs cfg adapter st).1 = st) := by
  have hne : st.jobs ≠ [] := by
    intro hnil
    rw [hnil] at herr
    simp [sortJobs, List.insertionSort, errorFrom] at herr
  have hempty : st.jobs.isEmpty = false := List.isEmpty_eq_false.mpr hne
  have hchain : (runJobChain adapter st (sortJobs st.jobs)).error = some e :=
    (runJobChain_error adapter (sortJobs st.jobs) st).trans herr
  simp only [runAllJobs, hempty, Bool.false_eq_true, if_false, hchain, hoff,
    if_true]
  refine ⟨trivial, runJobChain_remoteIdRecords adapter _ st, ?_, ?_⟩
  · intro j hj hnotin
    rw [runJobChain_jobs]
    refine List.mem_filter.mpr ⟨hj, List.all_eq_true.mpr fun d hd => ?_⟩
    refine bne_iff_ne.mpr fun hde => hnotin ?_
    exact List.mem_map.mpr ⟨d, hd, hde⟩
  · intro hdone
    exact runJobChain_state_of_immediate_error adapter _ st e herr hdone

/-- Concrete run of the amended C4: the drain halts at its first remote
call with the offline status, the outer promise resolves, and queue,
map and shadow store are exactly the pre-drain state. -/
theorem offline_halt_frame_witness :
    errorFrom alwaysOfflineAdapter (sortJobs [appErrorJob]) =
      some ⟨some 0⟩ ∧
    isOffline (⟨some 0⟩ : SyncError) = true ∧
    doneFrom alwaysOfflineAdapter (sortJobs [appErrorJob]) = [] ∧
    (runAllJobs ⟨none⟩ alwaysOfflineAdapter
        ⟨[appErrorJob], [⟨"user", "fryctoria9", "7"⟩],
         [⟨"user", "42", [("name", "Alice")]⟩]⟩).1 =
      ⟨[appErrorJob], [⟨"user", "fryctoria9", "7"⟩],
       [⟨"user", "42", [("name", "Alice")]⟩]⟩ :=
  ⟨by decide, by decide, by decide,
   (offline_halt_frame ⟨none⟩ alwaysOfflineAdapter
       ⟨[appErrorJob], [⟨"user", "fryctoria9", "7"⟩],
        [⟨"user", "42", [("name", "Alice")]⟩]⟩ ⟨some 0⟩
       (by decide) (by decide)).2.2.2 (by decide)⟩

/-- C5: a Create job whose original local id is unmapped, and whose
remote call succeeds with a remote-shaped server id, records exactly
one new reconciliation entry — (typeName, original local id) mapped to
the returned remote id, appended to the persisted collection — and
re-keys the local shadow entry: the key under the old local id resolves
to nothing anymore, while the new remote id resolves to the job
record's field values. -/
theorem create_job_success_effects (adapter : RemoteAdapter)
    (st : SyncerState) (job : Job) (extracted : RawRecord)
    (hop : job.operation = Operation.createRecord)
    (hlocal : isRemoteId job.record.id = false)
    (hnomap : findMapping st.remoteIdRecords job.typeName job.record.id = none)
    (hremote : adapter job = RemoteReply.ok extracted)
    (hrid : isRemoteId extracted.id = true) :
    ∃ st1, runJob adapter st job = Except.ok st1 ∧
      st1.remoteIdRecords = st.remoteIdRecords ++
        [⟨job.typeName, job.record.id, extracted.id⟩] ∧
      shadowGet st1.shadow job.typeName job.record.id = none ∧
      shadowGet st1.shadow job.typeName extracted.id =
        some job.record.fields := by
  have hres : resolveId st.remoteIdRecords job.typeName job.record.id =
      job.record.id := by
    simp [resolveId, hlocal, hnomap]
  have hneid : job.record.id ≠ extracted.id := by
    intro h
    rw [h, hrid] at hlocal
    cases hlocal
  refine ⟨deleteJobById
      (refreshLocalRecord
        (createRemoteIdRecordSt st
          ⟨job.typeName, job.record.id, extracted.id⟩)
        job.typeName job.record.id extracted.id job.record.fields)
      job.id, ?_, ?_, ?_, ?_⟩
  · simp [runJob, hop, hremote, hres]
  · simp [deleteJobById, refreshLocalRecord, createRemoteIdRecordSt]
  · have hsh : (deleteJobById
        (refreshLocalRecord
          (createRemoteIdRecordSt st
            ⟨job.typeName, job.record.id, extracted.id⟩)
          job.typeName job.record.id extracted.id job.record.fields)
        job.id).shadow =
        shadowCreate (shadowDelete st.shadow job.typeName job.record.id)
          job.typeName extracted.id job.record.fields := by
      simp [deleteJobById, refreshLocalRecord, createRemoteIdRecordSt]
    rw [hsh,
      shadowGet_create_ne _ _ _ _ _ _ (Or.inr hneid),
      shadowGet_delete_self]
  · have hsh : (deleteJobById
        (refreshLocalRecord
          (createRemoteIdRecordSt st
            ⟨job.typeName, job.record.id, extracted.id⟩)
          job.typeName job.record.id extracted.id job.record.fields)
        job.id).shadow =
        shadowCreate (shadowDelete st.shadow job.typeName job.record.id)
          job.typeName extracted.id job.record.fields := by
      simp [deleteJobById, refreshLocalRecord, createRemoteIdRecordSt]
    rw [hsh, shadowGet_create_self]

/-- Concrete run of C5: replaying the create job for local id
fryctoria1 against a remote call answering with id 42 records the
single mapping (user, fryctoria1) to 42, the old shadow key resolves to
nothing and the new key holds the job's field values. -/
theorem create_job_success_effects_witness :
    firstCreateJob.operation = Operation.createRecord ∧
    isRemoteId firstCreateJob.record.id = false ∧
    isRemoteId "42" = true ∧
    (∃ st1,
      runJob allOkAdapter ⟨[firstCreateJob], [], []⟩ firstCreateJob =
        Except.ok st1 ∧
      st1.remoteIdRecords = [] ++
        [⟨firstCreateJob.typeName, firstCreateJob.record.id, "42"⟩] ∧
      shadowGet st1.shadow firstCreateJob.typeName
        firstCreateJob.record.id = none ∧
      shadowGet st1.shadow firstCreateJob.typeName "42" =
        some firstCreateJob.record.fields) :=
  ⟨by decide, by decide, by decide,
   create_job_success_effects allOkAdapter ⟨[firstCreateJob], [], []⟩
     firstCreateJob ⟨"42", []⟩ (by decide) (by decide) (by decide)
     (by decide) (by decide)⟩

/-- C6: when a job's remote dispatch is rejected with a non-offline
(application) error, the offending job is not dequeued: it is still in
the queue after the drain, whether or not a pluggable error handler is
installed, and whatever that handler returns. -/
theorem application_error_keeps_job_queued (cfg : SyncerConfig)
    (adapter : RemoteAdapter) (st : SyncerState) (done1 : List Job)
    (jf : Job) (e : SyncError)
    (hids : (st.jobs.map Job.id).Nodup)
    (htrace : traceFrom adapter (sortJobs st.jobs) = done1 ++ [jf])
    (herr : errorFrom adapter (sortJobs st.jobs) = some e)
    (hoff : isOffline e = false) :
    jf ∈ (runAllJobs cfg adapter st).1.jobs := by
  obtain ⟨jl, htr2, hadapter⟩ := errorFrom_some adapter _ e herr
  have heq : done1 ++ [jf] = doneFrom adapter (sortJobs st.jobs) ++ [jl] :=
    htrace.symm.trans htr2
  obtain ⟨hdone_eq, hsing⟩ := List.append_inj' heq rfl
  have hsub : (done1 ++ [jf]).Sublist (sortJobs st.jobs) := by
    rw [← htrace]
    exact traceFrom_sublist adapter _
  have hjf_sorted : jf ∈ sortJobs st.jobs := hsub.subset (by simp)
  have hjf_mem : jf ∈ st.jobs := (sortJobs_perm st.jobs).mem_iff.mp hjf_sorted
  have hids_sorted : ((sortJobs st.jobs).map Job.id).Nodup :=
    ((sortJobs_perm st.jobs).map Job.id).nodup_iff.mpr hids
  have hids_trace : ((done1 ++ [jf]).map Job.id).Nodup :=
    (hsub.map Job.id).nodup hids_sorted
  have hnotin : jf.id ∉ done1.map Job.id := by
    rw [List.map_append] at hids_trace
    rcases List.nodup_append.mp hids_trace with ⟨-, -, hdisj⟩
    intro hmem
    exact hdisj hmem (by simp)
  have hne : st.jobs ≠ [] := by
    intro hnil
    rw [hnil] at htrace
    simp [sortJobs, List.insertionSort, traceFrom] at htrace
  have hempty : st.jobs.isEmpty = false := List.isEmpty_eq_false.mpr hne
  have hchain : (runJobChain adapter st (sortJobs st.jobs)).error = some e :=
    (runJobChain_error adapter (sortJobs st.jobs) st).trans herr
  have hmem_final :
      jf ∈ (runJobChain adapter st (sortJobs st.jobs)).state.jobs := by
    rw [runJobChain_jobs]
    refine List.mem_filter.mpr ⟨hjf_mem, List.all_eq_true.mpr fun d hd => ?_⟩
    refine bne_iff_ne.mpr fun hde => hnotin ?_
    rw [hdone_eq]
    exact List.mem_map.mpr ⟨d, hd, hde⟩
  simp only [runAllJobs, hempty, Bool.false_eq_true, if_false, hchain, hoff]
  cases hh : cfg.handleSyncUpError <;> simp [hh] <;> exact hmem_final

/-- Concrete run of C6: a lone update job rejected with HTTP 404 stays
queued although a pluggable handler is installed and resolves. -/
theorem application_error_keeps_job_queued_witness :
    ([appErrorJob].map Job.id).Nodup ∧
    traceFrom (fun _ => RemoteReply.err ⟨some 404⟩) (sortJobs [appErrorJob]) =
      [] ++ [appErrorJob] ∧
    errorFrom (fun _ => RemoteReply.err ⟨some 404⟩) (sortJobs [appErrorJob]) =
      some ⟨some 404⟩ ∧
    isOffline (⟨some 404⟩ : SyncError) = false ∧
    appErrorJob ∈ (runAllJobs ⟨some fun _ => Outcome.resolved⟩
        (fun _ => RemoteReply.err ⟨some 404⟩)
        ⟨[appErrorJob], [], []⟩).1.jobs :=
  ⟨by decide, by decide, by decide, by decide,
   application_error_keeps_job_queued ⟨some fun _ => Outcome.resolved⟩
     (fun _ => RemoteReply.err ⟨some 404⟩) ⟨[appErrorJob], [], []⟩ []
     appErrorJob ⟨some 404⟩ (by decide) (by decide) (by decide) (by decide)⟩

/-- C2: a drain over a queue with pairwise distinct `createdAt` values
dispatches jobs in strictly ascending `createdAt` order; the dispatch
sequence is the same for any two queues holding the same jobs in any
order, so it is independent of how the jobs were enqueued or stored;
and when every remote call succeeds the sequence is a rearrangement of
the whole queue — every job is replayed.  The one-at-a-time discipline
is the chain itself: `runJobChain` starts job N+1 only on the state in
which job N has settled, and stops at the first rejection. -/
theorem drain_replay_order (adapter : RemoteAdapter) (st1 st2 : SyncerState)
    (hperm : st1.jobs.Perm st2.jobs)
    (hd : st1.jobs.Pairwise (fun a b => a.createdAt ≠ b.createdAt)) :
    List.Sorted jobLT (drainTrace adapter st1) ∧
    drainTrace adapter st1 = drainTrace adapter st2 ∧
    (errorFrom adapter (sortJobs st1.jobs) = none →
      (drainTrace adapter st1).Perm st1.jobs) := by
  have htr1 : drainTrace adapter st1 = traceFrom adapter (sortJobs st1.jobs) :=
    runJobChain_trace adapter (sortJobs st1.jobs) st1
  refine ⟨?_, ?_, ?_⟩
  · rw [htr1]
    exact List.Pairwise.sublist (traceFrom_sublist adapter _)
      (sortJobs_sorted_strict st1.jobs hd)
  · have htr2 : drainTrace adapter st2 =
        traceFrom adapter (sortJobs st2.jobs) :=
      runJobChain_trace adapter (sortJobs st2.jobs) st2
    rw [htr1, htr2, sortJobs_eq_of_perm st1.jobs st2.jobs hperm hd]
  · intro hok
    rw [htr1, (errorFrom_none adapter _ hok).2]
    exact sortJobs_perm st1.jobs

/-- Concrete run of C2: two queues holding the same two jobs in
opposite orders produce the same dispatch sequence, strictly ascending
in `createdAt` and covering both jobs. -/
theorem drain_replay_order_witness :
    ([secondUpdateJob, firstCreateJob] : List Job).Perm
      [firstCreateJob, secondUpdateJob] ∧
    ([secondUpdateJob, firstCreateJob] : List Job).Pairwise
      (fun a b => a.createdAt ≠ b.createdAt) ∧
    (List.Sorted jobLT (drainTrace allOkAdapter
        ⟨[secondUpdateJob, firstCreateJob], [], []⟩) ∧
     drainTrace allOkAdapter ⟨[secondUpdateJob, firstCreateJob], [], []⟩ =
       drainTrace allOkAdapter ⟨[firstCreateJob, secondUpdateJob], [], []⟩ ∧
     (errorFrom allOkAdapter
        (sortJobs [secondUpdateJob, firstCreateJob]) = none →
       (drainTrace allOkAdapter
         ⟨[secondUpdateJob, firstCreateJob], [], []⟩).Perm
         [secondUpdateJob, firstCreateJob])) :=
  ⟨by decide, by decide,
   drain_replay_order allOkAdapter
     ⟨[secondUpdateJob, firstCreateJob], [], []⟩
     ⟨[firstCreateJob, secondUpdateJob], [], []⟩ (by decide) (by decide)⟩

/-- C8: a full-collection reload first deletes every currently shadowed
record of the type (the whole delete phase runs before any creation —
in the embedding the create fold is applied to the result of the delete
fold), and afterwards the type's shadow collection holds exactly the
freshly fetched records with a non-empty id, in fetch order; fetched
records lacking an id are skipped; entries of every other type are
untouched. -/
theorem reloadLocalRecords_spec (sh : List ShadowEntry) (tn : String)
    (records : List RawRecord)
    (hnodup :
      ((records.filter (fun x => x.id != "")).map RawRecord.id).Nodup) :
    (reloadLocalRecords sh tn records).filter (fun e => e.typeName == tn) =
      (records.filter (fun x => x.id != "")).map
        (fun x => (⟨tn, x.id, x.fields⟩ : ShadowEntry)) ∧
    (reloadLocalRecords sh tn records).filter (fun e => e.typeName != tn) =
      sh.filter (fun e => e.typeName != tn) := by
  have hunfold : reloadLocalRecords sh tn records =
      records.foldl (reloadCreateStep tn)
        (sh.filter (fun e => e.typeName != tn)) := by
    show records.foldl (reloadCreateStep tn)
        ((sh.filter (fun e => e.typeName == tn)).foldl
          (reloadDeleteStep tn) sh) = _
    rw [reload_afterDelete]
  have hacc : ∀ r ∈ records, r.id != "" →
      (sh.filter (fun e => e.typeName != tn)).filter
        (shadowMatches tn r.id) = [] := by
    intro r hr hid
    rw [List.filter_eq_nil_iff]
    intro e he hm
    have h1 : (e.typeName != tn) = true := (List.mem_filter.mp he).2
    simp only [shadowMatches, Bool.and_eq_true, beq_iff_eq] at hm
    rw [hm.1] at h1
    simp at h1
  obtain ⟨h1, h2⟩ := foldl_reloadCreate_char tn records
    (sh.filter (fun e => e.typeName != tn)) hacc hnodup
  have hz : (sh.filter (fun e => e.typeName != tn)).filter
      (fun e => e.typeName == tn) = [] := by
    rw [List.filter_filter, List.filter_eq_nil_iff]
    intro e he
    cases ht : e.typeName == tn <;> simp [ht, bne]
  have hid2 : (sh.filter (fun e => e.typeName != tn)).filter
      (fun e => e.typeName != tn) = sh.filter (fun e => e.typeName != tn) := by
    rw [List.filter_filter]
    refine List.filter_congr (fun e he => ?_)
    cases ht : e.typeName != tn <;> simp [ht]
  constructor
  · rw [hunfold, h1, hz, List.nil_append]
  · rw [hunfold, h2, hid2]

/-- Concrete run of C8, the spec scenario: reloading type user with
fetched ids 1 and 2 (plus an id-less record that is skipped) over a
store shadowing user ids 1 and 9 and a pet record leaves exactly user
entries 1 and 2; entry 9 is gone and the pet entry is untouched. -/
theorem reloadLocalRecords_spec_witness :
    ((([⟨"1", [("name", "Alice")]⟩, ⟨"2", [("name", "Bob")]⟩, ⟨"", []⟩] :
        List RawRecord).filter (fun x => x.id != "")).map
          RawRecord.id).Nodup ∧
    ((reloadLocalRecords
        [⟨"user", "1", [("name", "Old")]⟩, ⟨"user", "9", []⟩,
         ⟨"pet", "7", [("name", "Rex")]⟩] "user"
        [⟨"1", [("name", "Alice")]⟩, ⟨"2", [("name", "Bob")]⟩,
         ⟨"", []⟩]).filter (fun e => e.typeName == "user") =
      [⟨"user", "1", [("name", "Alice")]⟩, ⟨"user", "2", [("name", "Bob")]⟩] ∧
     (reloadLocalRecords
        [⟨"user", "1", [("name", "Old")]⟩, ⟨"user", "9", []⟩,
         ⟨"pet", "7", [("name", "Rex")]⟩] "user"
        [⟨"1", [("name", "Alice")]⟩, ⟨"2", [("name", "Bob")]⟩,
         ⟨"", []⟩]).filter (fun e => e.typeName != "user") =
      ([⟨"user", "1", [("name", "Old")]⟩, ⟨"user", "9", []⟩,
        ⟨"pet", "7", [("name", "Rex")]⟩] : List ShadowEntry).filter
          (fun e => e.typeName != "user")) :=
  ⟨by decide,
   reloadLocalRecords_spec
     [⟨"user", "1", [("name", "Old")]⟩, ⟨"user", "9", []⟩,
      ⟨"pet", "7", [("name", "Rex")]⟩] "user"
     [⟨"1", [("name", "Alice")]⟩, ⟨"2", [("name", "Bob")]⟩, ⟨"", []⟩]
     (by decide)⟩

end Fryctoria
